import Mathlib

set_option maxHeartbeats 1000000

/-!
Verification development for the Librarian retrieval service
(`src/app` of the repository): a shallow embedding of the request-time
retrieval pipeline (`app/api/v1/endpoints/context.py`), the health
endpoint (`app/api/v1/endpoints/health.py`), the startup lifecycle
(`app/main.py`) and the configuration validator (`app/core/config.py`),
together with theorems settling the specification's claims about them.
-/

namespace Librarian

/-- JSON values, the shape of a request's `filters` field
(`ContextRequest.filters: Optional[dict[str, Any]]` in
`app/models/schemas.py`) and of chunk metadata.  Python dict values are
modelled as association lists of key/value pairs; numbers are modelled
as integers (no claim depends on float arithmetic). -/
inductive Json where
  | null : Json
  | bool : Bool → Json
  | num : Int → Json
  | str : String → Json
  | arr : List Json → Json
  | obj : List (String × Json) → Json

/-- Rendering of a JSON string literal.  `orjson` additionally escapes
special characters; escaping is a fixed injective post-processing of the
string and plays no role in the key-ordering claims, so it is omitted. -/
def renderString (s : String) : String := "\"" ++ s ++ "\""

/-- Comparison used by `orjson.OPT_SORT_KEYS`: object members are ordered
by their key. -/
def keyLe (p q : String × String) : Prop := p.1 ≤ q.1

instance : DecidableRel keyLe := fun p q => inferInstanceAs (Decidable (p.1 ≤ q.1))

instance : IsTotal (String × String) keyLe := ⟨fun p q => le_total p.1 q.1⟩

instance : IsTrans (String × String) keyLe := ⟨fun _ _ _ h h2 => le_trans h h2⟩

/-- Sort the rendered members of a JSON object by key, as
`orjson.dumps(..., option=orjson.OPT_SORT_KEYS)` does.  (On the key-unique
lists produced from Python dicts every comparison sort by key computes the
same list.) -/
def sortPairs (l : List (String × String)) : List (String × String) :=
  List.insertionSort keyLe l

/-- Rendering of one `key: value` member of a JSON object. -/
def renderMember (p : String × String) : String := renderString p.1 ++ ":" ++ p.2

mutual

/-- `orjson.dumps(j, option=orjson.OPT_SORT_KEYS).decode()`: canonical JSON
serialization with object keys sorted at every nesting depth (values are
rendered first and then the members sorted by key, which yields the same
string because the comparison looks only at keys). -/
def serialize : Json → String
  | .null => "null"
  | .bool b => if b then "true" else "false"
  | .num n => toString n
  | .str s => renderString s
  | .arr xs => "[" ++ String.intercalate "," (serializeList xs) ++ "]"
  | .obj kvs => "\x7b" ++ String.intercalate ","
      ((sortPairs (serializeKVs kvs)).map renderMember) ++ "\x7d"

/-- Serialization of the elements of a JSON array, in order. -/
def serializeList : List Json → List String
  | [] => []
  | x :: xs => serialize x :: serializeList xs

/-- Rendering of the members of a JSON object, keys kept for the
subsequent sort. -/
def serializeKVs : List (String × Json) → List (String × String)
  | [] => []
  | (k, v) :: kvs => (k, serialize v) :: serializeKVs kvs

end

/-- The member function applied before sorting in `serialize`: render the
value, keep the key. -/
def renderPair (p : String × Json) : String × String := (p.1, serialize p.2)

lemma serializeList_eq_map (xs : List Json) : serializeList xs = xs.map serialize := by
  induction xs with
  | nil => rfl
  | cons x xs ih => simp [serializeList, ih]

lemma serializeKVs_eq_map (kvs : List (String × Json)) :
    serializeKVs kvs = kvs.map renderPair := by
  induction kvs with
  | nil => rfl
  | cons p kvs ih =>
    obtain ⟨k, v⟩ := p
    simp [serializeKVs, renderPair, ih]

mutual

/-- "Equal up to key ordering at every nesting depth": the relation under
which the specification asserts two `filters` values yield the same cache
key.  Objects may list their members in any order (witnessed by an
intermediate list `mid`); values are compared recursively. -/
inductive KeyPerm : Json → Json → Prop where
  | null : KeyPerm .null .null
  | bool (b : Bool) : KeyPerm (.bool b) (.bool b)
  | num (n : Int) : KeyPerm (.num n) (.num n)
  | str (s : String) : KeyPerm (.str s) (.str s)
  | arr {xs ys : List Json} : KeyPermList xs ys → KeyPerm (.arr xs) (.arr ys)
  | obj {kvs mid lvs : List (String × Json)} :
      KeyPermKVs kvs mid → List.Perm mid lvs → KeyPerm (.obj kvs) (.obj lvs)

/-- Pointwise `KeyPerm` on JSON arrays (order of array elements is
significant, so no permutation here). -/
inductive KeyPermList : List Json → List Json → Prop where
  | nil : KeyPermList [] []
  | cons {x y : Json} {xs ys : List Json} :
      KeyPerm x y → KeyPermList xs ys → KeyPermList (x :: xs) (y :: ys)

/-- Pointwise comparison of object member lists: equal keys in the same
order, values related by `KeyPerm`. -/
inductive KeyPermKVs : List (String × Json) → List (String × Json) → Prop where
  | nil : KeyPermKVs [] []
  | cons {k : String} {x y : Json} {kvs lvs : List (String × Json)} :
      KeyPerm x y → KeyPermKVs kvs lvs →
      KeyPermKVs ((k, x) :: kvs) ((k, y) :: lvs)

end

mutual

/-- Every object node of the value has pairwise distinct keys.  This is an
invariant of every value that arrives from a parsed request body: Python
dicts cannot hold duplicate keys. -/
def nodupKeys : Json → Bool
  | .null => true
  | .bool _ => true
  | .num _ => true
  | .str _ => true
  | .arr xs => nodupKeysList xs
  | .obj kvs => decide ((kvs.map Prod.fst).Nodup) && nodupKeysKVs kvs

/-- `nodupKeys` over the elements of an array. -/
def nodupKeysList : List Json → Bool
  | [] => true
  | x :: xs => nodupKeys x && nodupKeysList xs

/-- `nodupKeys` over the values of an object's member list. -/
def nodupKeysKVs : List (String × Json) → Bool
  | [] => true
  | (_, v) :: kvs => nodupKeys v && nodupKeysKVs kvs

end

lemma nodupKeysList_iff {xs : List Json} :
    nodupKeysList xs = true ↔ ∀ x ∈ xs, nodupKeys x = true := by
  induction xs with
  | nil => simp [nodupKeysList]
  | cons x xs ih => simp [nodupKeysList, ih]

lemma nodupKeysKVs_iff {kvs : List (String × Json)} :
    nodupKeysKVs kvs = true ↔ ∀ p ∈ kvs, nodupKeys p.2 = true := by
  induction kvs with
  | nil => simp [nodupKeysKVs]
  | cons p kvs ih =>
    obtain ⟨k, v⟩ := p
    simp [nodupKeysKVs, ih]

lemma nodupKeys_arr {xs : List Json} :
    nodupKeys (.arr xs) = true ↔ ∀ x ∈ xs, nodupKeys x = true := by
  simp [nodupKeys, nodupKeysList_iff]

lemma nodupKeys_obj {kvs : List (String × Json)} :
    nodupKeys (.obj kvs) = true ↔
      (kvs.map Prod.fst).Nodup ∧ ∀ p ∈ kvs, nodupKeys p.2 = true := by
  simp [nodupKeys, nodupKeysKVs_iff]

/-- Strict version of `keyLe`; antisymmetric (vacuously, as the premises
of antisymmetry are contradictory), which lets two sorted key-unique lists
that are permutations of each other be identified. -/
def keyLt (p q : String × String) : Prop := p.1 < q.1

instance : IsAntisymm (String × String) keyLt :=
  ⟨fun _ _ h h2 => absurd h2 (lt_asymm h)⟩

lemma sortPairs_perm (l : List (String × String)) : List.Perm (sortPairs l) l :=
  List.perm_insertionSort keyLe l

lemma sortPairs_sorted (l : List (String × String)) : List.Sorted keyLe (sortPairs l) :=
  List.sorted_insertionSort keyLe l

lemma pairwise_keyLt_of_sorted {l : List (String × String)}
    (h : List.Sorted keyLe l) (hnd : (l.map Prod.fst).Nodup) :
    List.Pairwise keyLt l := by
  have hne : List.Pairwise (fun p q : String × String => p.1 ≠ q.1) l :=
    List.pairwise_map.mp hnd
  exact (h.and hne).imp (fun h2 => lt_of_le_of_ne h2.1 h2.2)

/-- Any two key-unique member lists that are permutations of each other
sort to the same list. -/
lemma sortPairs_eq_of_perm {l₁ l₂ : List (String × String)}
    (hp : List.Perm l₁ l₂) (hnd : (l₂.map Prod.fst).Nodup) :
    sortPairs l₁ = sortPairs l₂ := by
  have hps : List.Perm (sortPairs l₁) (sortPairs l₂) :=
    ((sortPairs_perm l₁).trans hp).trans (sortPairs_perm l₂).symm
  have hnd₂ : ((sortPairs l₂).map Prod.fst).Nodup :=
    (List.Perm.nodup_iff (List.Perm.map Prod.fst (sortPairs_perm l₂))).mpr hnd
  have hnd₁ : ((sortPairs l₁).map Prod.fst).Nodup :=
    (List.Perm.nodup_iff (List.Perm.map Prod.fst hps)).mpr hnd₂
  exact List.eq_of_perm_of_sorted hps
    (pairwise_keyLt_of_sorted (sortPairs_sorted l₁) hnd₁)
    (pairwise_keyLt_of_sorted (sortPairs_sorted l₂) hnd₂)

lemma serialize_arr (xs : List Json) :
    serialize (.arr xs) = "[" ++ String.intercalate "," (xs.map serialize) ++ "]" := by
  rw [serialize, serializeList_eq_map]

lemma serialize_obj (kvs : List (String × Json)) :
    serialize (.obj kvs) = "\x7b" ++ String.intercalate ","
      ((sortPairs (kvs.map renderPair)).map renderMember) ++ "\x7d" := by
  rw [serialize, serializeKVs_eq_map]

mutual

/-- `serialize` maps `KeyPerm`-related key-unique values to the same
string: reordering object members (at any depth) does not change the
canonical serialization. -/
theorem serialize_eq_of_keyPerm (a b : Json) (h : KeyPerm a b)
    (ha : nodupKeys a = true) (hb : nodupKeys b = true) :
    serialize a = serialize b := by
  cases h with
  | null => rfl
  | bool b => rfl
  | num n => rfl
  | str s => rfl
  | arr hxy =>
    rename_i xs ys
    rw [serialize_arr, serialize_arr]
    have hmap : xs.map serialize = ys.map serialize :=
      serializeList_eq_of_keyPermList xs ys hxy
        (nodupKeys_arr.mp ha) (nodupKeys_arr.mp hb)
    rw [hmap]
  | obj hkv hperm =>
    rename_i kvs mid lvs
    obtain ⟨hndl, hvl⟩ := nodupKeys_obj.mp hb
    have hvm : ∀ p ∈ mid, nodupKeys p.2 = true := by
      intro p hp
      exact hvl p (hperm.mem_iff.mp hp)
    have hmap : kvs.map renderPair = mid.map renderPair :=
      serializeKVs_eq_of_keyPermKVs kvs mid hkv (nodupKeys_obj.mp ha).2 hvm
    have hpermF : List.Perm (kvs.map renderPair) (lvs.map renderPair) := by
      rw [hmap]
      exact hperm.map renderPair
    have hndF : ((lvs.map renderPair).map Prod.fst).Nodup := by
      rw [List.map_map]
      exact hndl
    rw [serialize_obj, serialize_obj, sortPairs_eq_of_perm hpermF hndF]

theorem serializeList_eq_of_keyPermList (xs ys : List Json) (h : KeyPermList xs ys)
    (ha : ∀ x ∈ xs, nodupKeys x = true) (hb : ∀ y ∈ ys, nodupKeys y = true) :
    xs.map serialize = ys.map serialize := by
  cases h with
  | nil => rfl
  | cons hxy hrest =>
    rename_i x y xs ys
    have h1 : serialize x = serialize y :=
      serialize_eq_of_keyPerm x y hxy (ha x (by simp)) (hb y (by simp))
    have h2 : xs.map serialize = ys.map serialize :=
      serializeList_eq_of_keyPermList xs ys hrest
        (fun z hz => ha z (by simp [hz])) (fun z hz => hb z (by simp [hz]))
    simp [h1, h2]

theorem serializeKVs_eq_of_keyPermKVs (kvs lvs : List (String × Json)) (h : KeyPermKVs kvs lvs)
    (ha : ∀ p ∈ kvs, nodupKeys p.2 = true) (hb : ∀ p ∈ lvs, nodupKeys p.2 = true) :
    kvs.map renderPair = lvs.map renderPair := by
  cases h with
  | nil => rfl
  | cons hxy hrest =>
    rename_i k x y kvs lvs
    have h1 : serialize x = serialize y :=
      serialize_eq_of_keyPerm x y hxy (ha (k, x) (by simp)) (hb (k, y) (by simp))
    have h2 : kvs.map renderPair = lvs.map renderPair :=
      serializeKVs_eq_of_keyPermKVs kvs lvs hrest
        (fun z hz => ha z (by simp [hz])) (fun z hz => hb z (by simp [hz]))
    simp [renderPair, h1, h2]

end

/-! ## The context endpoint (`app/api/v1/endpoints/context.py`) -/

/-- `body.query.lower().strip()` (context.py line 50).  Python's
`str.lower` is modelled by `String.toLower` and `str.strip` by
`String.trim` (identical on ASCII input). -/
def normalizeQuery (q : String) : String := q.toLower.trim

/-- `ContextRequest` of `app/models/schemas.py`: `query` (3-512 chars),
`max_results` (1-20, default 5), optional `filters` dict. -/
structure ContextRequest where
  query : String
  max_results : Nat
  filters : Option (List (String × Json))

/-- Schema bounds enforced by pydantic before `get_context` runs
(`schemas.py` lines 35-36). -/
def validRequest (body : ContextRequest) : Prop :=
  3 ≤ body.query.length ∧ body.query.length ≤ 512 ∧
    1 ≤ body.max_results ∧ body.max_results ≤ 20

/-- Python truthiness of `body.filters` (context.py line 52): `None` and
the empty dict are falsy, so neither contributes a part to the key. -/
def filtersTruthy : Option (List (String × Json)) → Bool
  | none => false
  | some kvs => !kvs.isEmpty

/-- `cache_key_parts` (context.py lines 51-54). -/
def cacheKeyParts (body : ContextRequest) : List String :=
  let parts := [normalizeQuery body.query, toString body.max_results]
  if filtersTruthy body.filters then
    parts ++ [serialize (Json.obj (body.filters.getD []))]
  else parts

/-- `cache_key_string` (context.py line 56).  The cache key proper is
`"context_query:" ++ md5_hexdigest(cache_key_string)`; MD5 is a fixed
deterministic function of this string, so equality of keys is stated on
the pre-digest string and the digest is carried along unevaluated. -/
def cacheKeyString (body : ContextRequest) : String :=
  String.intercalate ":" (cacheKeyParts body)

/-- `cache_key` (context.py line 59), with the MD5 digest modelled by the
identity on the digested string (only `x = y → md5 x = md5 y` is ever
used by the claims). -/
def cacheKey (body : ContextRequest) : String :=
  "context_query:" ++ cacheKeyString body

/-- `ContextChunk` of `schemas.py`: content, metadata dict, score.
Scores are floats in the source; they are modelled as integers, which
preserves every comparison- and equality-based claim. -/
structure ContextChunk where
  content : String
  metadata : Json
  score : Int

/-- `ContextResponse` of `schemas.py`. -/
structure ContextResponse where
  query_id : String
  context : List ContextChunk
  processing_time_ms : Nat

/-- A value of the JSON dict produced by `response.model_dump(...)`. -/
inductive DumpVal where
  | str : String → DumpVal
  | num : Nat → DumpVal
  | chunks : List ContextChunk → DumpVal

/-- `response.model_dump()`: pydantic dumps the fields in declaration
order (`schemas.py` lines 50-53). -/
def modelDump (r : ContextResponse) : List (String × DumpVal) :=
  [("query_id", .str r.query_id), ("context", .chunks r.context),
   ("processing_time_ms", .num r.processing_time_ms)]

/-- `response.model_dump(exclude={...})` (context.py line 163). -/
def modelDumpExclude (ex : List String) (r : ContextResponse) : List (String × DumpVal) :=
  (modelDump r).filter (fun kv => !(ex.contains kv.1))

/-- Outcome of `await redis_client.get(cache_key)` together with the
deserialization of its value: the call may raise, return `None`, or
return a stored JSON dict. -/
inductive CacheGetResult where
  | fail
  | missing
  | hit : List (String × DumpVal) → CacheGetResult

/-- Outcome of `await redis_client.set(...)`: success or a raised
exception. -/
inductive CacheSetResult where
  | ok
  | fail

/-- The `results` dict returned by `chroma_collection.query`
(context.py lines 120-122): parallel lists of documents, metadata dicts
and distances. -/
structure RetrievalResult where
  documents : List String
  metadatas : List Json
  distances : List Int

/-- The part of `app.state` read by `get_context` (context.py lines
61-64): which capabilities are non-`None`. -/
structure AppStateReq where
  redis_client : Bool
  chroma_collection : Bool
  embedding_model : Bool
  reranker_model : Bool

/-- Behaviour of the external collaborators during one request: cache
outcomes, the fresh `uuid4`, the elapsed monotonic time measured at
response construction, the embedding function, the reranker scores and
the retrieval result. -/
structure Env where
  cacheGet : CacheGetResult
  cacheSet : CacheSetResult
  uuid : String
  elapsedMs : Nat
  encode : String → List Int
  predict : List (String × String) → List Int
  retrieval : RetrievalResult

/-- The calls `get_context` makes to its collaborators, in program
order. -/
inductive Event where
  | cacheGet (key : String)
  | embed (text : String)
  | chromaQuery (vector : List Int) (nResults : Nat)
      (filters : Option (List (String × Json)))
  | rerankPredict (pairs : List (String × String))
  | cacheSet (key : String) (payload : List (String × DumpVal)) (ttl : Nat)

/-- The configuration fields the modelled code reads
(`app/core/config.py`). -/
structure Settings where
  RERANKING_ENABLED : Bool
  RERANK_CANDIDATE_POOL_SIZE : Nat
  REDIS_CACHE_TTL_SECONDS : Nat
  EMBEDDING_MODEL_NAME : String

/-- `Settings.validate_reranking_pool` (config.py lines 81-85): the
configuration is rejected at startup iff reranking is enabled and the
pool size is below 5. -/
def validateRerankingPool (s : Settings) : Bool :=
  !(s.RERANKING_ENABLED && s.RERANK_CANDIDATE_POOL_SIZE < 5)

/-- HTTP error responses raised by `get_context`. -/
inductive HttpError where
  | serviceUnavailable
  | internalError

/-- `cached_data['context']` followed by re-validation into
`ContextResponse` (context.py lines 78-83): yields the chunk list when
the cached dict has a well-formed `"context"` member; any other shape
raises inside the same `try` block, which is caught and falls through to
the miss path. -/
def lookupContext (payload : List (String × DumpVal)) : Option (List ContextChunk) :=
  match payload.lookup "context" with
  | some (.chunks cs) => some cs
  | _ => none

/-- Lines 73-85 of context.py: the cache lookup.  A raised `get`
(`CacheGetResult.fail`), a miss, or a malformed hit all produce `none`
(the `except` block logs and falls through); only a well-formed hit
produces chunks.  No lookup happens without a redis client. -/
def cacheStage (st : AppStateReq) (env : Env) (key : String) :
    Option (List ContextChunk) × List Event :=
  if st.redis_client then
    (match env.cacheGet with
     | .hit payload => lookupContext payload
     | .missing => none
     | .fail => none,
     [Event.cacheGet key])
  else (none, [])

/-! The rerank stage (context.py lines 125-142).  Python's `sorted` with
`key=lambda x: x[0]` and `reverse=True` is a *stable* descending sort on
the score component; each zipped tuple is tagged below with its original
position so that stability can be stated, and the sort is modelled by
insertion sort over the same "descending by score" total preorder, which
is stable in exactly the same sense and therefore computes the same
reordering on every input. -/

/-- One element of `zip(rerank_scores, docs, metadatas, distances)`
(context.py line 134), tagged with its original retrieval position. -/
structure Cand where
  score : Int
  doc : String
  meta : Json
  dist : Int
  pos : Nat

/-- "a sorts no later than b" for the descending-by-score sort. -/
def rerankLe (a b : Cand) : Prop := b.score ≤ a.score

instance : DecidableRel rerankLe := fun a b => inferInstanceAs (Decidable (b.score ≤ a.score))

instance : IsTotal Cand rerankLe := ⟨fun a b => le_total b.score a.score⟩

instance : IsTrans Cand rerankLe := ⟨fun _ _ _ h h2 => le_trans h2 h⟩

/-- The lexicographic order "descending score, then ascending original
position": the order a stable descending sort actually realizes. -/
def rerankLex (a b : Cand) : Prop :=
  b.score < a.score ∨ (a.score = b.score ∧ a.pos ≤ b.pos)

instance : DecidableRel rerankLex :=
  fun a b => inferInstanceAs (Decidable (_ ∨ _))

instance : IsTotal Cand rerankLex := by
  constructor
  intro a b
  rcases lt_trichotomy a.score b.score with h | h | h
  · exact Or.inr (Or.inl h)
  · rcases Nat.le_total a.pos b.pos with hp | hp
    · exact Or.inl (Or.inr ⟨h, hp⟩)
    · exact Or.inr (Or.inr ⟨h.symm, hp⟩)
  · exact Or.inl (Or.inl h)

instance : IsTrans Cand rerankLex := by
  constructor
  rintro a b c (h1 | ⟨h1e, h1p⟩) (h2 | ⟨h2e, h2p⟩)
  · exact Or.inl (lt_trans h2 h1)
  · exact Or.inl (by omega)
  · exact Or.inl (by omega)
  · exact Or.inr ⟨by omega, le_trans h1p h2p⟩

/-- Tag the zipped tuples with their original positions. -/
def tagCands (scores : List Int) (docs : List String) (metas : List Json)
    (dists : List Int) : List Cand :=
  ((scores.zip (docs.zip (metas.zip dists))).enum).map
    (fun e => ⟨e.2.1, e.2.2.1, e.2.2.2.1, e.2.2.2.2, e.1⟩)

/-- `sorted(zip(rerank_scores, docs, metadatas, distances),
key=lambda x: x[0], reverse=True)` (context.py line 134): the stable
descending-by-score sort. -/
def rerankSort (l : List Cand) : List Cand := List.insertionSort rerankLe l

/-- Projection from a sorted candidate back to the response chunk
(context.py lines 147-150). -/
def toChunk (c : Cand) : ContextChunk := ⟨c.doc, c.meta, c.score⟩

/-- Lines 146-173 of context.py: response assembly and the best-effort
cache store.  The `set` is only attempted with a redis client and a
non-empty result; a raised `set` (`CacheSetResult.fail`) is caught at
lines 170-171 and the same response is returned. -/
def finishStage (s : Settings) (st : AppStateReq) (env : Env) (key : String)
    (context_chunks : List ContextChunk) (events : List Event) :
    Except HttpError ContextResponse × List Event :=
  let response : ContextResponse := ⟨env.uuid, context_chunks, env.elapsedMs⟩
  if st.redis_client && !context_chunks.isEmpty then
    let payload := modelDumpExclude ["processing_time_ms", "query_id"] response
    let events := events ++ [Event.cacheSet key payload s.REDIS_CACHE_TTL_SECONDS]
    match env.cacheSet with
    | .ok => (.ok response, events)
    | .fail => (.ok response, events)
  else (.ok response, events)

/-- Lines 89-173 of context.py: everything after the cache stage on a
miss.  Interactions with collaborators are recorded in program order. -/
def retrievalStage (s : Settings) (st : AppStateReq) (env : Env)
    (body : ContextRequest) (events : List Event) :
    Except HttpError ContextResponse × List Event :=
  if !st.chroma_collection then
    (.error .serviceUnavailable, events)
  else
    let normalized_query := normalizeQuery body.query
    let query_vector := env.encode normalized_query
    let n_results_retrieval :=
      if st.reranker_model && s.RERANKING_ENABLED then s.RERANK_CANDIDATE_POOL_SIZE
      else body.max_results
    let events := events ++ [Event.embed normalized_query,
      Event.chromaQuery query_vector n_results_retrieval body.filters]
    let docs := env.retrieval.documents
    let metas := env.retrieval.metadatas
    let dists := env.retrieval.distances
    if st.reranker_model && s.RERANKING_ENABLED && !docs.isEmpty then
      let rerank_pairs := docs.map (fun d => (body.query, d))
      let rerank_scores := env.predict rerank_pairs
      let events := events ++ [Event.rerankPredict rerank_pairs]
      let final := (rerankSort (tagCands rerank_scores docs metas dists)).take body.max_results
      finishStage s st env (cacheKey body) (final.map toChunk) events
    else
      let final_scores := dists.map (fun d => 1 - d)
      let context_chunks := (docs.zip (metas.zip final_scores)).map
        (fun p => ⟨p.1, p.2.1, p.2.2⟩)
      finishStage s st env (cacheKey body) context_chunks events

/-- `get_context` (context.py lines 27-180): the embedding-availability
gate, the cache lookup, and — on a miss — retrieval, optional reranking,
response assembly and the cache store. -/
def getContext (s : Settings) (st : AppStateReq) (env : Env)
    (body : ContextRequest) : Except HttpError ContextResponse × List Event :=
  if !st.embedding_model then
    (.error .serviceUnavailable, [])
  else
    match cacheStage st env (cacheKey body) with
    | (some cs, events) => (.ok ⟨env.uuid, cs, env.elapsedMs⟩, events)
    | (none, events) => retrievalStage s st env body events

/-! ## The health endpoint (`app/api/v1/endpoints/health.py`) -/

/-- `HealthStatus` of `schemas.py`. -/
inductive HealthStatus where
  | ok
  | degraded
  deriving DecidableEq

/-- `IndexStatus` of `schemas.py`. -/
inductive IndexStatus where
  | loaded
  | loading
  | not_found
  deriving DecidableEq

/-- The parsed `index_manifest.json`, a JSON dict read with `.get`: each
field may be absent. -/
structure Manifest where
  embedding_model : Option String
  chroma_collection_name : Option String
  branch : Option String
  deriving DecidableEq

/-- The part of `app.state` read by `get_health`.  The collection handle
carries the collection name (`collection.name`, health.py line 78). -/
structure HealthAppState where
  index_status : IndexStatus
  reranker_model : Bool
  redis_client : Bool
  chroma_collection : Option String
  index_manifest : Option Manifest

/-- The fields of `HealthResponse` whose values the handler computes
(version, timestamps and resource usage are environment pass-throughs no
claim mentions). -/
structure HealthResponseM where
  status : HealthStatus
  index_status : IndexStatus
  redis_status : String
  reranker_status : String
  index_branch : Option String
  chroma_collection : Option String
  deriving DecidableEq

/-- Lines 42-49 of health.py: the reranker substatus string and whether
it counts as healthy. -/
def rerankerSub (s : Settings) (st : HealthAppState) : String × Bool :=
  if s.RERANKING_ENABLED then
    if st.reranker_model then ("loaded", true) else ("error", false)
  else ("disabled", true)

/-- `get_health` (health.py lines 24-100).  `redisPingOk` is the outcome
of the 1-second `redis_client.ping()`, reported in `redis_status` only.
The handler performs no live probe of the storage backend at all; the
parameter `backendProbeOk` stands for the outcome such a probe would
have had, and — faithfully to the source — is never consulted.  The
second component is the HTTP status code (503 when degraded, else the
default 200). -/
def getHealth (s : Settings) (st : HealthAppState) (redisPingOk : Bool)
    (backendProbeOk : Bool) : HealthResponseM × Nat :=
  let sub := rerankerSub s st
  let service_status :=
    if st.index_status = IndexStatus.loaded ∧ sub.2 = true then HealthStatus.ok
    else HealthStatus.degraded
  let httpStatus := if service_status = HealthStatus.degraded then 503 else 200
  let redis_status :=
    if st.redis_client && redisPingOk then "connected" else "disconnected"
  let index_branch :=
    if st.index_status = IndexStatus.loaded then
      match st.index_manifest with
      | some m => m.branch
      | none => none
    else none
  (⟨service_status, st.index_status, redis_status, sub.1, index_branch,
    st.chroma_collection⟩, httpStatus)

/-! ## Startup lifecycle (`app/main.py`) -/

/-- The fields of `app.state` written by `lifespan` and
`load_dependencies`. -/
structure LifecycleState where
  index_status : IndexStatus
  embedding_model : Bool
  reranker_model : Bool
  chroma_collection : Option String
  index_manifest : Option Manifest
  index_last_modified : Bool
  deriving DecidableEq

/-- `app.state` as initialized by `lifespan` (main.py lines 167-172)
before the background task starts. -/
def lifespanInit : LifecycleState :=
  ⟨IndexStatus.loading, false, false, none, none, false⟩

/-- Behaviour of the collaborators during `load_dependencies`: whether
each external call succeeds, and the parsed manifest. -/
structure LoadEnv where
  /-- `SentenceTransformer(model_name)` (main.py line 54) succeeds. -/
  embed_load_ok : Bool
  /-- `CrossEncoder(reranker_model_name)` (line 64) succeeds. -/
  reranker_load_ok : Bool
  /-- `index_manager.download_index_from_oci` returns truthy. -/
  downloaded : Bool
  /-- `index_manager.unpack_index` returns truthy. -/
  unpacked : Bool
  /-- `manifest_path.exists()` (line 93). -/
  manifest_exists : Bool
  /-- `orjson.loads(manifest_content)` (line 97). -/
  manifest : Manifest
  /-- `PersistentClient` construction and `get_collection`
  (lines 121-131) succeed. -/
  collection_load_ok : Bool

/-- Result of running `load_dependencies`: every state in assignment
order (starting from the given initial state), the final state, and
whether the coroutine re-raised. -/
structure LoadResult where
  trace : List LifecycleState
  final : LifecycleState
  raised : Bool

/-- `load_dependencies` (main.py lines 45-145) as a step-by-step state
trace.  Each mutation of `app.state` appends a snapshot; exception
control flow follows the two `try/except` blocks of the source. -/
def loadDependencies (s : Settings) (env : LoadEnv) (st0 : LifecycleState) :
    LoadResult :=
  if !env.embed_load_ok then
    let s1 := { st0 with embedding_model := false }
    let s2 := { s1 with index_status := IndexStatus.not_found }
    ⟨[st0, s1, s2], s2, true⟩
  else
    let sA := { st0 with embedding_model := true }
    let sB :=
      if s.RERANKING_ENABLED then
        if env.reranker_load_ok then { sA with reranker_model := true }
        else { sA with reranker_model := false }
      else sA
    if env.downloaded && env.unpacked then
      if !env.manifest_exists then
        let e1 := { sB with chroma_collection := none }
        let e2 := { e1 with index_status := IndexStatus.not_found }
        ⟨[st0, sA, sB, e1, e2], e2, true⟩
      else
        let sC := { sB with index_manifest := some env.manifest }
        if env.manifest.embedding_model ≠ some s.EMBEDDING_MODEL_NAME then
          let e1 := { sC with chroma_collection := none }
          let e2 := { e1 with index_status := IndexStatus.not_found }
          ⟨[st0, sA, sB, sC, e1, e2], e2, true⟩
        else if env.manifest.chroma_collection_name = none then
          let e1 := { sC with chroma_collection := none }
          let e2 := { e1 with index_status := IndexStatus.not_found }
          ⟨[st0, sA, sB, sC, e1, e2], e2, true⟩
        else if !env.collection_load_ok then
          let e1 := { sC with chroma_collection := none }
          let e2 := { e1 with index_status := IndexStatus.not_found }
          ⟨[st0, sA, sB, sC, e1, e2], e2, true⟩
        else
          let sD := { sC with chroma_collection := env.manifest.chroma_collection_name }
          let sE := { sD with index_status := IndexStatus.loaded }
          let sF := { sE with index_last_modified := true }
          ⟨[st0, sA, sB, sC, sD, sE, sF], sF, false⟩
    else
      let f1 := { sB with chroma_collection := none }
      let f2 := { f1 with index_status := IndexStatus.not_found }
      let f3 := { f2 with chroma_collection := none }
      let f4 := { f3 with index_status := IndexStatus.not_found }
      ⟨[st0, sA, sB, f1, f2, f3, f4], f4, true⟩

/-- `_handle_startup_errors` (main.py lines 34-43): the done-callback of
the startup task calls `sys.exit(1)` exactly when the task raised. -/
def startupExitsProcess (r : LoadResult) : Bool := r.raised

/-! ## Claim theorems -/

lemma keyPermKVs_length : ∀ {kvs lvs : List (String × Json)},
    KeyPermKVs kvs lvs → kvs.length = lvs.length := by
  intro kvs
  induction kvs with
  | nil =>
    intro lvs h
    cases h
    rfl
  | cons p kvs ih =>
    intro lvs h
    cases h with
    | cons hv hrest => simpa using ih hrest

lemma keyPerm_obj_length {f₁ f₂ : List (String × Json)}
    (h : KeyPerm (Json.obj f₁) (Json.obj f₂)) : f₁.length = f₂.length := by
  cases h with
  | obj hkv hperm => exact (keyPermKVs_length hkv).trans hperm.length_eq

/-- C3: the cache key string (the exact input of the MD5 digest, context.py
lines 50-57) is a deterministic function of the normalized query,
`max_results` and the canonical filter serialization: two key-unique
filter maps equal up to key ordering at every nesting depth produce the
identical key, and an absent `filters` field and the empty filter map
produce the identical key. -/
theorem cache_key_canonical (q : String) (m : Nat)
    (f₁ f₂ : List (String × Json))
    (hperm : KeyPerm (Json.obj f₁) (Json.obj f₂))
    (h₁ : nodupKeys (Json.obj f₁) = true) (h₂ : nodupKeys (Json.obj f₂) = true) :
    cacheKeyString ⟨q, m, some f₁⟩ = cacheKeyString ⟨q, m, some f₂⟩ ∧
      cacheKeyString ⟨q, m, none⟩ = cacheKeyString ⟨q, m, some []⟩ := by
  constructor
  · have hlen : f₁.length = f₂.length := keyPerm_obj_length hperm
    by_cases hemp : f₁ = []
    · have he₂ : f₂ = [] := by
        apply List.eq_nil_of_length_eq_zero
        rw [← hlen, hemp]
        rfl
      rw [hemp, he₂]
    · have hne₂ : f₂ ≠ [] := by
        intro h2
        apply hemp
        apply List.eq_nil_of_length_eq_zero
        rw [hlen, h2]
        rfl
      obtain ⟨p₁, f₁t, rfl⟩ : ∃ p t, f₁ = p :: t := by
        cases f₁ with
        | nil => exact absurd rfl hemp
        | cons p t => exact ⟨p, t, rfl⟩
      obtain ⟨p₂, f₂t, rfl⟩ : ∃ p t, f₂ = p :: t := by
        cases f₂ with
        | nil => exact absurd rfl hne₂
        | cons p t => exact ⟨p, t, rfl⟩
      simp only [cacheKeyString, cacheKeyParts, filtersTruthy, List.isEmpty_cons,
        Bool.not_false, if_true, Option.getD_some]
      rw [serialize_eq_of_keyPerm _ _ hperm h₁ h₂]
  · simp [cacheKeyString, cacheKeyParts, filtersTruthy]

/-- Witness for `cache_key_canonical`: two concrete nested filter maps
that differ only in member order (at both depths), and the absent/empty
pair. -/
theorem cache_key_canonical_witness :
    cacheKeyString ⟨"how does auth work", 3,
        some [("b", Json.num 1), ("a", Json.obj [("y", Json.num 2), ("x", Json.num 3)])]⟩ =
      cacheKeyString ⟨"how does auth work", 3,
        some [("a", Json.obj [("x", Json.num 3), ("y", Json.num 2)]), ("b", Json.num 1)]⟩ ∧
    cacheKeyString ⟨"how does auth work", 3, none⟩ =
      cacheKeyString ⟨"how does auth work", 3, some []⟩ :=
  cache_key_canonical "how does auth work" 3 _ _
    (KeyPerm.obj
      (KeyPermKVs.cons (KeyPerm.num 1)
        (KeyPermKVs.cons
          (KeyPerm.obj
            (KeyPermKVs.cons (KeyPerm.num 2)
              (KeyPermKVs.cons (KeyPerm.num 3) KeyPermKVs.nil))
            (List.Perm.swap ("x", Json.num 3) ("y", Json.num 2) []))
          KeyPermKVs.nil))
      (List.Perm.swap ("a", Json.obj [("x", Json.num 3), ("y", Json.num 2)])
        ("b", Json.num 1) []))
    (by decide) (by decide)

/-- Whether the cache stage short-circuits the request: a redis client is
present and `get` returned a well-formed hit. -/
def cacheHitServed (st : AppStateReq) (env : Env) : Bool :=
  st.redis_client &&
    (match env.cacheGet with
     | .hit payload => (lookupContext payload).isSome
     | .missing => false
     | .fail => false)

lemma cacheStage_of_noHit {st : AppStateReq} {env : Env} (key : String)
    (h : cacheHitServed st env = false) :
    cacheStage st env key =
      (none, if st.redis_client then [Event.cacheGet key] else []) := by
  unfold cacheHitServed at h
  unfold cacheStage
  cases hr : st.redis_client with
  | false => simp [hr]
  | true =>
    cases hg : env.cacheGet with
    | fail => simp [hr, hg]
    | missing => simp [hr, hg]
    | hit payload =>
      rw [hr, hg] at h
      simp only [Bool.true_and] at h
      have hl : lookupContext payload = none := by
        cases hl2 : lookupContext payload with
        | none => rfl
        | some cs =>
          rw [hl2] at h
          simp at h
      simp [hr, hg, hl]

lemma getContext_of_noHit (s : Settings) (st : AppStateReq) (env : Env)
    (body : ContextRequest) (hemb : st.embedding_model = true)
    (hmiss : cacheHitServed st env = false) :
    getContext s st env body =
      retrievalStage s st env body
        (if st.redis_client then [Event.cacheGet (cacheKey body)] else []) := by
  unfold getContext
  rw [hemb, cacheStage_of_noHit (cacheKey body) hmiss]
  simp

lemma finishStage_eq (s : Settings) (st : AppStateReq) (env : Env) (key : String)
    (cs : List ContextChunk) (evs : List Event) :
    finishStage s st env key cs evs =
      (.ok ⟨env.uuid, cs, env.elapsedMs⟩,
       evs ++ (if st.redis_client && !cs.isEmpty then
         [Event.cacheSet key
           (modelDumpExclude ["processing_time_ms", "query_id"] ⟨env.uuid, cs, env.elapsedMs⟩)
           s.REDIS_CACHE_TTL_SECONDS]
       else [])) := by
  unfold finishStage
  cases h : (st.redis_client && !cs.isEmpty) with
  | false => simp
  | true =>
    simp only [if_true]
    cases env.cacheSet <;> simp

lemma retrievalStage_rerank (s : Settings) (st : AppStateReq) (env : Env)
    (body : ContextRequest) (evs : List Event)
    (hch : st.chroma_collection = true) (hrr : st.reranker_model = true)
    (hen : s.RERANKING_ENABLED = true)
    (hdocs : env.retrieval.documents.isEmpty = false) :
    retrievalStage s st env body evs =
      finishStage s st env (cacheKey body)
        (((rerankSort (tagCands
            (env.predict (env.retrieval.documents.map (fun d => (body.query, d))))
            env.retrieval.documents env.retrieval.metadatas
            env.retrieval.distances)).take body.max_results).map toChunk)
        (evs ++ [Event.embed (normalizeQuery body.query),
          Event.chromaQuery (env.encode (normalizeQuery body.query))
            s.RERANK_CANDIDATE_POOL_SIZE body.filters,
          Event.rerankPredict
            (env.retrieval.documents.map (fun d => (body.query, d)))]) := by
  unfold retrievalStage
  simp [hch, hrr, hen, hdocs]

lemma retrievalStage_noRerank (s : Settings) (st : AppStateReq) (env : Env)
    (body : ContextRequest) (evs : List Event)
    (hch : st.chroma_collection = true)
    (hno : (st.reranker_model && s.RERANKING_ENABLED) = false) :
    retrievalStage s st env body evs =
      finishStage s st env (cacheKey body)
        ((env.retrieval.documents.zip (env.retrieval.metadatas.zip
            (env.retrieval.distances.map (fun d => 1 - d)))).map
          (fun p => ⟨p.1, p.2.1, p.2.2⟩))
        (evs ++ [Event.embed (normalizeQuery body.query),
          Event.chromaQuery (env.encode (normalizeQuery body.query))
            body.max_results body.filters]) := by
  unfold retrievalStage
  rcases hb : st.reranker_model with _ | _ <;>
    rcases he : s.RERANKING_ENABLED with _ | _ <;>
      simp_all [hch]

lemma retrievalStage_noChroma (s : Settings) (st : AppStateReq) (env : Env)
    (body : ContextRequest) (evs : List Event)
    (hch : st.chroma_collection = false) :
    retrievalStage s st env body evs = (.error .serviceUnavailable, evs) := by
  unfold retrievalStage
  simp [hch]

lemma retrievalStage_else (s : Settings) (st : AppStateReq) (env : Env)
    (body : ContextRequest) (evs : List Event)
    (hch : st.chroma_collection = true)
    (hcond : (st.reranker_model && s.RERANKING_ENABLED &&
      !env.retrieval.documents.isEmpty) = false) :
    retrievalStage s st env body evs =
      finishStage s st env (cacheKey body)
        ((env.retrieval.documents.zip (env.retrieval.metadatas.zip
            (env.retrieval.distances.map (fun d => 1 - d)))).map
          (fun p => ⟨p.1, p.2.1, p.2.2⟩))
        (evs ++ [Event.embed (normalizeQuery body.query),
          Event.chromaQuery (env.encode (normalizeQuery body.query))
            (if st.reranker_model && s.RERANKING_ENABLED then
              s.RERANK_CANDIDATE_POOL_SIZE
             else body.max_results) body.filters]) := by
  unfold retrievalStage
  simp [hch, hcond]

lemma retrievalStage_cacheGet_irrel (s : Settings) (st : AppStateReq) (env : Env)
    (body : ContextRequest) (evs : List Event) (x : CacheGetResult) :
    retrievalStage s st { env with cacheGet := x } body evs =
      retrievalStage s st env body evs := rfl

lemma finishStage_cacheSet_irrel (s : Settings) (st : AppStateReq) (env : Env)
    (key : String) (cs : List ContextChunk) (evs : List Event) (x y : CacheSetResult) :
    finishStage s st { env with cacheSet := x } key cs evs =
      finishStage s st { env with cacheSet := y } key cs evs := by
  rw [finishStage_eq, finishStage_eq]

lemma retrievalStage_cacheSet_irrel (s : Settings) (st : AppStateReq) (env : Env)
    (body : ContextRequest) (evs : List Event) (x y : CacheSetResult) :
    retrievalStage s st { env with cacheSet := x } body evs =
      retrievalStage s st { env with cacheSet := y } body evs := by
  cases hch : st.chroma_collection with
  | false =>
    rw [retrievalStage_noChroma s st { env with cacheSet := x } body evs hch,
      retrievalStage_noChroma s st { env with cacheSet := y } body evs hch]
  | true =>
    cases hcond : (st.reranker_model && s.RERANKING_ENABLED &&
        !env.retrieval.documents.isEmpty) with
    | false =>
      rw [retrievalStage_else s st { env with cacheSet := x } body evs hch hcond,
        retrievalStage_else s st { env with cacheSet := y } body evs hch hcond]
      exact finishStage_cacheSet_irrel ..
    | true =>
      simp only [Bool.and_eq_true, Bool.not_eq_true'] at hcond
      obtain ⟨⟨hrr, hen⟩, hd⟩ := hcond
      rw [retrievalStage_rerank s st { env with cacheSet := x } body evs hch hrr hen hd,
        retrievalStage_rerank s st { env with cacheSet := y } body evs hch hrr hen hd]
      exact finishStage_cacheSet_irrel ..

/-- C7: cache faults are best-effort.  A raised cache `get` produces the
same request outcome (response and calls) as a clean cache miss, and a
raised cache `set` produces the same request outcome as a successful
`set`: neither fault ever surfaces as an error to the caller. -/
theorem cache_faults_best_effort (s : Settings) (st : AppStateReq) (env : Env)
    (body : ContextRequest) :
    getContext s st { env with cacheGet := CacheGetResult.fail } body =
      getContext s st { env with cacheGet := CacheGetResult.missing } body ∧
    getContext s st { env with cacheSet := CacheSetResult.fail } body =
      getContext s st { env with cacheSet := CacheSetResult.ok } body := by
  constructor
  · cases hm : st.embedding_model with
    | false => simp [getContext, hm]
    | true =>
      rw [getContext_of_noHit s st { env with cacheGet := CacheGetResult.fail }
          body hm (by simp [cacheHitServed]),
        getContext_of_noHit s st { env with cacheGet := CacheGetResult.missing }
          body hm (by simp [cacheHitServed]),
        retrievalStage_cacheGet_irrel s st env body _ CacheGetResult.fail,
        retrievalStage_cacheGet_irrel s st env body _ CacheGetResult.missing]
  · cases hm : st.embedding_model with
    | false => simp [getContext, hm]
    | true =>
      unfold getContext
      rw [hm]
      simp only [Bool.not_true, Bool.false_eq_true, if_false]
      have hcs : ∀ z : CacheSetResult, cacheStage st { env with cacheSet := z }
          (cacheKey body) = cacheStage st env (cacheKey body) := fun z => rfl
      rw [hcs CacheSetResult.fail, hcs CacheSetResult.ok]
      cases hstage : cacheStage st env (cacheKey body) with
      | mk o evs =>
        cases o with
        | some cs => rfl
        | none => exact retrievalStage_cacheSet_irrel ..

/-- C8: when the embedding capability is unavailable, `get_context`
returns 503 immediately: no cache, embedding, retriever or reranker call
is made (the interaction trace is empty). -/
theorem embedding_unavailable_503 (s : Settings) (st : AppStateReq) (env : Env)
    (body : ContextRequest) (h : st.embedding_model = false) :
    getContext s st env body = (.error .serviceUnavailable, []) := by
  unfold getContext
  rw [h]
  rfl

/-- Witness for `embedding_unavailable_503`. -/
theorem embedding_unavailable_503_witness :
    getContext ⟨true, 25, 3600, "model"⟩ ⟨true, true, false, true⟩
      ⟨CacheGetResult.missing, CacheSetResult.ok, "uuid-1", 4, fun _ => [0],
        fun ps => ps.map (fun _ => 0), ⟨[], [], []⟩⟩
      ⟨"abc", 5, none⟩ = (.error .serviceUnavailable, []) :=
  embedding_unavailable_503 _ _ _ _ rfl

/-- A concrete configuration used by several witnesses: reranking enabled
with candidate pool 5. -/
def sampleSettings : Settings := ⟨true, 5, 3600, "model"⟩

/-- A concrete app state with every capability available. -/
def sampleState : AppStateReq := ⟨true, true, true, true⟩

/-- A concrete request-time environment: a cache miss, five retrieved
documents, and a reranker that scores every pair 0 (so every pair of
candidates ties). -/
def sampleEnv : Env :=
  ⟨CacheGetResult.missing, CacheSetResult.ok, "uuid-1", 4, fun _ => [0],
    fun ps => ps.map (fun _ => 0),
    ⟨["d1", "d2", "d3", "d4", "d5"],
     [Json.null, Json.null, Json.null, Json.null, Json.null],
     [0, 0, 0, 0, 0]⟩⟩

/-- A concrete request with `max_results = 7`, exceeding the configured
pool size 5 of `sampleSettings`. -/
def sampleBody : ContextRequest := ⟨"abc", 7, none⟩

/-- C1 as stated is false: with reranking active, pool size 5 and
`max_results = 7`, the retriever is asked for `5` candidates (the event
at index 2 of the trace), not `max(max_results, configuredPoolSize) = 7`.
-/
theorem candidate_pool_counterexample :
    ((getContext sampleSettings sampleState sampleEnv sampleBody).2.get? 2 =
      some (Event.chromaQuery [0] 5 none)) ∧
    ¬ ((5 : Nat) = max sampleBody.max_results
        sampleSettings.RERANK_CANDIDATE_POOL_SIZE) :=
  ⟨rfl, by decide⟩

/-- C1 (amended): for every request that reaches retrieval with reranking
enabled and a loaded reranker, the retriever is asked for exactly
`RERANK_CANDIDATE_POOL_SIZE` candidates — regardless of `max_results` —
and the startup validator does enforce a pool size of at least 5 whenever
reranking is enabled. -/
theorem candidate_pool_amended (s : Settings) (st : AppStateReq) (env : Env)
    (body : ContextRequest) (hemb : st.embedding_model = true)
    (hmiss : cacheHitServed st env = false) (hch : st.chroma_collection = true)
    (hrr : st.reranker_model = true) (hen : s.RERANKING_ENABLED = true) :
    Event.chromaQuery (env.encode (normalizeQuery body.query))
        s.RERANK_CANDIDATE_POOL_SIZE body.filters ∈ (getContext s st env body).2 ∧
      (validateRerankingPool s = true → 5 ≤ s.RERANK_CANDIDATE_POOL_SIZE) := by
  constructor
  · rw [getContext_of_noHit s st env body hemb hmiss]
    cases hd : env.retrieval.documents.isEmpty with
    | false =>
      rw [retrievalStage_rerank s st env body _ hch hrr hen hd, finishStage_eq]
      simp
    | true =>
      rw [retrievalStage_else s st env body _ hch (by simp [hd]), finishStage_eq]
      simp [hrr, hen]
  · intro hv
    unfold validateRerankingPool at hv
    rw [hen] at hv
    simp at hv
    omega

/-- Witness for `candidate_pool_amended` at the concrete sample run. -/
theorem candidate_pool_amended_witness :
    Event.chromaQuery (sampleEnv.encode (normalizeQuery sampleBody.query))
        sampleSettings.RERANK_CANDIDATE_POOL_SIZE sampleBody.filters ∈
      (getContext sampleSettings sampleState sampleEnv sampleBody).2 ∧
      (validateRerankingPool sampleSettings = true →
        5 ≤ sampleSettings.RERANK_CANDIDATE_POOL_SIZE) :=
  candidate_pool_amended sampleSettings sampleState sampleEnv sampleBody
    rfl rfl rfl rfl rfl

/-- C10: the embedding is computed from the normalized (lowercased,
stripped) query, while the (query, document) pairs sent to the reranker
carry the raw query text exactly as submitted. -/
theorem query_normalization_split (s : Settings) (st : AppStateReq) (env : Env)
    (body : ContextRequest) (hemb : st.embedding_model = true)
    (hmiss : cacheHitServed st env = false) (hch : st.chroma_collection = true)
    (hrr : st.reranker_model = true) (hen : s.RERANKING_ENABLED = true)
    (hdocs : env.retrieval.documents.isEmpty = false) :
    Event.embed (normalizeQuery body.query) ∈ (getContext s st env body).2 ∧
    Event.rerankPredict (env.retrieval.documents.map (fun d => (body.query, d))) ∈
      (getContext s st env body).2 ∧
    normalizeQuery body.query = body.query.toLower.trim := by
  rw [getContext_of_noHit s st env body hemb hmiss,
    retrievalStage_rerank s st env body _ hch hrr hen hdocs, finishStage_eq]
  refine ⟨by simp, by simp, rfl⟩

/-- Witness for `query_normalization_split` at the concrete sample run. -/
theorem query_normalization_split_witness :
    Event.embed (normalizeQuery sampleBody.query) ∈
      (getContext sampleSettings sampleState sampleEnv sampleBody).2 ∧
    Event.rerankPredict (sampleEnv.retrieval.documents.map
        (fun d => (sampleBody.query, d))) ∈
      (getContext sampleSettings sampleState sampleEnv sampleBody).2 ∧
    normalizeQuery sampleBody.query = sampleBody.query.toLower.trim :=
  query_normalization_split sampleSettings sampleState sampleEnv sampleBody
    rfl rfl rfl rfl rfl rfl

lemma pairwise_fst_lt_enum {α : Type} (l : List α) :
    List.Pairwise (fun a b : Nat × α => a.1 < b.1) l.enum := by
  have h : List.Pairwise (fun a b : Nat => a < b) (l.enum.map Prod.fst) := by
    rw [List.enum_map_fst]
    exact List.pairwise_lt_range _
  exact List.pairwise_map.mp h

lemma tagCands_pairwise_pos (sc : List Int) (d : List String) (me : List Json)
    (di : List Int) :
    List.Pairwise (fun a b => a.pos < b.pos) (tagCands sc d me di) := by
  unfold tagCands
  refine List.pairwise_map.mpr ?_
  exact pairwise_fst_lt_enum _

lemma tagCands_pos_range (sc : List Int) (d : List String) (me : List Json)
    (di : List Int) :
    (tagCands sc d me di).map Cand.pos =
      List.range (tagCands sc d me di).length := by
  unfold tagCands
  rw [List.map_map, List.length_map]
  show List.map Prod.fst (List.enum _) = _
  rw [List.enum_map_fst, List.enum_length]

lemma orderedInsert_agree (a : Cand) (l : List Cand)
    (h : ∀ b ∈ l, a.pos < b.pos) :
    List.orderedInsert rerankLe a l = List.orderedInsert rerankLex a l := by
  induction l with
  | nil => rfl
  | cons b t ih =>
    have hab : rerankLe a b ↔ rerankLex a b := by
      unfold rerankLe rerankLex
      have hpos : a.pos ≤ b.pos := le_of_lt (h b (by simp))
      constructor
      · intro hle
        rcases lt_or_eq_of_le hle with h1 | h1
        · exact Or.inl h1
        · exact Or.inr ⟨h1.symm, hpos⟩
      · rintro (h1 | ⟨h1, _⟩)
        · exact le_of_lt h1
        · exact le_of_eq h1.symm
    simp only [List.orderedInsert]
    by_cases hc : rerankLe a b
    · rw [if_pos hc, if_pos (hab.mp hc)]
    · rw [if_neg hc, if_neg (fun hx => hc (hab.mpr hx)),
        ih (fun c hc2 => h c (by simp [hc2]))]

/-- On candidate lists whose positions strictly increase (as produced by
`tagCands`), the stable descending-by-score sort coincides with the
insertion sort by the lexicographic order (score descending, position
ascending). -/
lemma rerankSort_eq_lex (l : List Cand)
    (h : List.Pairwise (fun a b => a.pos < b.pos) l) :
    rerankSort l = List.insertionSort rerankLex l := by
  induction l with
  | nil => rfl
  | cons a t ih =>
    have ht := (List.pairwise_cons.mp h).2
    have ha := (List.pairwise_cons.mp h).1
    show List.orderedInsert rerankLe a (List.insertionSort rerankLe t) =
      List.orderedInsert rerankLex a (List.insertionSort rerankLex t)
    have ih2 : List.insertionSort rerankLe t = List.insertionSort rerankLex t :=
      ih ht
    rw [ih2]
    apply orderedInsert_agree
    intro b hb
    exact ha b ((List.mem_insertionSort rerankLex).mp hb)

/-- C4: when the rerank stage runs over a non-empty candidate pool, the
returned context is the first `max_results` candidates of the stable
descending-by-score sort: it has at most `max_results` chunks, scores
descend, and candidates with equal rerank scores appear in their
original retrieval order (positions strictly increase within every tie).
-/
theorem rerank_order (s : Settings) (st : AppStateReq) (env : Env)
    (body : ContextRequest) (hemb : st.embedding_model = true)
    (hmiss : cacheHitServed st env = false) (hch : st.chroma_collection = true)
    (hrr : st.reranker_model = true) (hen : s.RERANKING_ENABLED = true)
    (hdocs : env.retrieval.documents.isEmpty = false) :
    (getContext s st env body).1 =
      .ok ⟨env.uuid,
        ((rerankSort (tagCands
            (env.predict (env.retrieval.documents.map (fun d => (body.query, d))))
            env.retrieval.documents env.retrieval.metadatas
            env.retrieval.distances)).take body.max_results).map toChunk,
        env.elapsedMs⟩ ∧
    (((rerankSort (tagCands
        (env.predict (env.retrieval.documents.map (fun d => (body.query, d))))
        env.retrieval.documents env.retrieval.metadatas
        env.retrieval.distances)).take body.max_results).map toChunk).length ≤
      body.max_results ∧
    List.Pairwise (fun a b => b.score < a.score ∨ (a.score = b.score ∧ a.pos < b.pos))
      ((rerankSort (tagCands
        (env.predict (env.retrieval.documents.map (fun d => (body.query, d))))
        env.retrieval.documents env.retrieval.metadatas
        env.retrieval.distances)).take body.max_results) ∧
    List.Pairwise (fun c₁ c₂ : ContextChunk => c₂.score ≤ c₁.score)
      (((rerankSort (tagCands
        (env.predict (env.retrieval.documents.map (fun d => (body.query, d))))
        env.retrieval.documents env.retrieval.metadatas
        env.retrieval.distances)).take body.max_results).map toChunk) := by
  have hrun : (getContext s st env body).1 = .ok ⟨env.uuid,
      ((rerankSort (tagCands
          (env.predict (env.retrieval.documents.map (fun d => (body.query, d))))
          env.retrieval.documents env.retrieval.metadatas
          env.retrieval.distances)).take body.max_results).map toChunk,
      env.elapsedMs⟩ := by
    rw [getContext_of_noHit s st env body hemb hmiss,
      retrievalStage_rerank s st env body _ hch hrr hen hdocs, finishStage_eq]
  refine ⟨hrun, by simp [List.length_take_le], ?_, ?_⟩
  · -- strict lexicographic pairwise on the truncated sorted candidates
    have htag := tagCands_pairwise_pos
      (env.predict (env.retrieval.documents.map (fun d => (body.query, d))))
      env.retrieval.documents env.retrieval.metadatas env.retrieval.distances
    set tc := tagCands
      (env.predict (env.retrieval.documents.map (fun d => (body.query, d))))
      env.retrieval.documents env.retrieval.metadatas env.retrieval.distances with htc
    have hsorted : List.Pairwise rerankLex (rerankSort tc) := by
      rw [rerankSort_eq_lex tc htag]
      exact List.sorted_insertionSort rerankLex tc
    have hnd : ((rerankSort tc).map Cand.pos).Nodup := by
      have hperm : List.Perm (rerankSort tc) tc := List.perm_insertionSort rerankLe tc
      refine (List.Perm.nodup_iff (List.Perm.map Cand.pos hperm)).mpr ?_
      rw [tagCands_pos_range]
      exact List.nodup_range _
    have hne : List.Pairwise (fun a b : Cand => a.pos ≠ b.pos) (rerankSort tc) :=
      List.pairwise_map.mp hnd
    have hstrict : List.Pairwise
        (fun a b => b.score < a.score ∨ (a.score = b.score ∧ a.pos < b.pos))
        (rerankSort tc) := by
      refine (hsorted.and hne).imp ?_
      rintro a b ⟨hlex | ⟨heq, hle⟩, hnep⟩
      · exact Or.inl hlex
      · exact Or.inr ⟨heq, lt_of_le_of_ne hle hnep⟩
    exact hstrict.sublist (List.take_sublist _ _)
  · -- chunk scores descend
    have htag := tagCands_pairwise_pos
      (env.predict (env.retrieval.documents.map (fun d => (body.query, d))))
      env.retrieval.documents env.retrieval.metadatas env.retrieval.distances
    set tc := tagCands
      (env.predict (env.retrieval.documents.map (fun d => (body.query, d))))
      env.retrieval.documents env.retrieval.metadatas env.retrieval.distances with htc
    have hsorted : List.Pairwise rerankLex (rerankSort tc) := by
      rw [rerankSort_eq_lex tc htag]
      exact List.sorted_insertionSort rerankLex tc
    refine List.pairwise_map.mpr ?_
    refine ((hsorted.sublist (List.take_sublist _ _)).imp ?_)
    rintro a b (hlt | ⟨heq, _⟩)
    · exact le_of_lt hlt
    · exact le_of_eq heq.symm

/-- Witness for `rerank_order`: the concrete sample run, in which every
rerank score ties at 0, so the five candidates keep retrieval order and
are truncated to `max_results`. -/
theorem rerank_order_witness :
    (getContext sampleSettings sampleState sampleEnv sampleBody).1 =
      .ok ⟨sampleEnv.uuid,
        ((rerankSort (tagCands
            (sampleEnv.predict (sampleEnv.retrieval.documents.map
              (fun d => (sampleBody.query, d))))
            sampleEnv.retrieval.documents sampleEnv.retrieval.metadatas
            sampleEnv.retrieval.distances)).take sampleBody.max_results).map toChunk,
        sampleEnv.elapsedMs⟩ ∧
    (((rerankSort (tagCands
        (sampleEnv.predict (sampleEnv.retrieval.documents.map
          (fun d => (sampleBody.query, d))))
        sampleEnv.retrieval.documents sampleEnv.retrieval.metadatas
        sampleEnv.retrieval.distances)).take sampleBody.max_results).map toChunk).length ≤
      sampleBody.max_results ∧
    List.Pairwise (fun a b => b.score < a.score ∨ (a.score = b.score ∧ a.pos < b.pos))
      ((rerankSort (tagCands
        (sampleEnv.predict (sampleEnv.retrieval.documents.map
          (fun d => (sampleBody.query, d))))
        sampleEnv.retrieval.documents sampleEnv.retrieval.metadatas
        sampleEnv.retrieval.distances)).take sampleBody.max_results) ∧
    List.Pairwise (fun c₁ c₂ : ContextChunk => c₂.score ≤ c₁.score)
      (((rerankSort (tagCands
        (sampleEnv.predict (sampleEnv.retrieval.documents.map
          (fun d => (sampleBody.query, d))))
        sampleEnv.retrieval.documents sampleEnv.retrieval.metadatas
        sampleEnv.retrieval.distances)).take sampleBody.max_results).map toChunk) :=
  rerank_order sampleSettings sampleState sampleEnv sampleBody rfl rfl rfl rfl rfl rfl

/-- C5: on a cache hit the response reuses the stored chunks verbatim
while `query_id` (the fresh uuid) and `processing_time_ms` (measured in
the current request) are regenerated, and no further collaborator call is
made; on a miss, the payload written to the cache is exactly the
`"context"` member — `model_dump` with `query_id` and
`processing_time_ms` excluded — and reading such a payload back yields
exactly the stored chunks. -/
theorem cache_hit_roundtrip (s : Settings) (st : AppStateReq) (env : Env)
    (body : ContextRequest) (payload : List (String × DumpVal))
    (cs : List ContextChunk) (hemb : st.embedding_model = true)
    (hr : st.redis_client = true)
    (hget : env.cacheGet = CacheGetResult.hit payload)
    (hl : lookupContext payload = some cs) :
    getContext s st env body =
      (.ok ⟨env.uuid, cs, env.elapsedMs⟩, [Event.cacheGet (cacheKey body)]) ∧
    (∀ r : ContextResponse,
      modelDumpExclude ["processing_time_ms", "query_id"] r =
        [("context", DumpVal.chunks r.context)]) ∧
    (∀ (cs2 : List ContextChunk) (evs : List Event), cs2.isEmpty = false →
      (finishStage s st env (cacheKey body) cs2 evs).2 =
        evs ++ [Event.cacheSet (cacheKey body)
          [("context", DumpVal.chunks cs2)] s.REDIS_CACHE_TTL_SECONDS]) ∧
    (∀ cs2 : List ContextChunk,
      lookupContext [("context", DumpVal.chunks cs2)] = some cs2) := by
  refine ⟨?_, fun r => rfl, ?_, fun cs2 => rfl⟩
  · unfold getContext cacheStage
    rw [hemb, hr, hget]
    simp [hl]
  · intro cs2 evs hne
    rw [finishStage_eq]
    have hdump : modelDumpExclude ["processing_time_ms", "query_id"]
        ⟨env.uuid, cs2, env.elapsedMs⟩ = [("context", DumpVal.chunks cs2)] := rfl
    rw [hdump]
    simp [hr, hne]

/-- Witness for `cache_hit_roundtrip`: a concrete hit on a one-chunk
stored payload. -/
theorem cache_hit_roundtrip_witness :
    getContext sampleSettings sampleState
      { sampleEnv with cacheGet :=
        CacheGetResult.hit [("context", DumpVal.chunks [⟨"c", Json.null, 1⟩])] }
      sampleBody =
      (.ok ⟨sampleEnv.uuid, [⟨"c", Json.null, 1⟩], sampleEnv.elapsedMs⟩,
        [Event.cacheGet (cacheKey sampleBody)]) ∧
    (∀ r : ContextResponse,
      modelDumpExclude ["processing_time_ms", "query_id"] r =
        [("context", DumpVal.chunks r.context)]) ∧
    (∀ (cs2 : List ContextChunk) (evs : List Event), cs2.isEmpty = false →
      (finishStage sampleSettings sampleState
          { sampleEnv with cacheGet :=
            CacheGetResult.hit [("context", DumpVal.chunks [⟨"c", Json.null, 1⟩])] }
          (cacheKey sampleBody) cs2 evs).2 =
        evs ++ [Event.cacheSet (cacheKey sampleBody)
          [("context", DumpVal.chunks cs2)]
          sampleSettings.REDIS_CACHE_TTL_SECONDS]) ∧
    (∀ cs2 : List ContextChunk,
      lookupContext [("context", DumpVal.chunks cs2)] = some cs2) :=
  cache_hit_roundtrip sampleSettings sampleState _ sampleBody
    [("context", DumpVal.chunks [⟨"c", Json.null, 1⟩])]
    [⟨"c", Json.null, 1⟩] rfl rfl rfl rfl

/-- C2 as the specification words it: overall status is OK iff the index
is LOADED, the reranker substatus is healthy, and a live backend
connectivity probe succeeds; 503 iff degraded.  (Stated for comparison
with `getHealth`, which performs no backend probe.) -/
def specHealthClaim (s : Settings) (st : HealthAppState)
    (redisPingOk backendProbeOk : Bool) : Prop :=
  ((getHealth s st redisPingOk backendProbeOk).1.status = HealthStatus.ok ↔
    (st.index_status = IndexStatus.loaded ∧ (rerankerSub s st).2 = true ∧
      backendProbeOk = true)) ∧
  ((getHealth s st redisPingOk backendProbeOk).2 = 503 ↔
    (getHealth s st redisPingOk backendProbeOk).1.status = HealthStatus.degraded)

/-- C2 as stated is false: with the index loaded, reranking disabled
(healthy substatus) and a failing backend probe, the handler still
reports OK — `get_health` performs no backend connectivity probe and its
status ignores the probe outcome. -/
theorem health_probe_counterexample :
    ¬ specHealthClaim ⟨false, 25, 3600, "model"⟩
      ⟨IndexStatus.loaded, false, true, some "col",
        some ⟨some "model", some "col", some "main"⟩⟩ true false := by
  unfold specHealthClaim
  decide

/-- C2 (amended): the overall status is OK iff `index_status == LOADED`
and the reranker substatus is healthy (loaded or disabled); the HTTP
status is 503 exactly when degraded, 200 otherwise.  Neither the redis
ping (reported only in `redis_status`) nor any backend connectivity
probe (which the handler does not perform) influences the overall
status. -/
theorem health_status_amended (s : Settings) (st : HealthAppState)
    (redisPingOk backendProbeOk : Bool) :
    ((getHealth s st redisPingOk backendProbeOk).1.status = HealthStatus.ok ↔
      (st.index_status = IndexStatus.loaded ∧ (rerankerSub s st).2 = true)) ∧
    ((getHealth s st redisPingOk backendProbeOk).2 = 503 ↔
      (getHealth s st redisPingOk backendProbeOk).1.status = HealthStatus.degraded) ∧
    ((rerankerSub s st).2 = (!s.RERANKING_ENABLED || st.reranker_model)) ∧
    (∀ p₁ p₂ : Bool, getHealth s st redisPingOk p₁ = getHealth s st redisPingOk p₂) ∧
    (∀ p₁ p₂ : Bool,
      (getHealth s st p₁ backendProbeOk).1.status =
        (getHealth s st p₂ backendProbeOk).1.status) := by
  refine ⟨?_, ?_, ?_, fun p₁ p₂ => rfl, fun p₁ p₂ => ?_⟩
  · unfold getHealth
    by_cases hcond : (st.index_status = IndexStatus.loaded ∧ (rerankerSub s st).2 = true)
    · simp [hcond]
    · simp [hcond]
  · unfold getHealth
    by_cases hcond : (st.index_status = IndexStatus.loaded ∧ (rerankerSub s st).2 = true)
    · simp [hcond]
    · simp [hcond]
  · unfold rerankerSub
    cases s.RERANKING_ENABLED <;> cases st.reranker_model <;> simp
  · unfold getHealth
    by_cases hcond : (st.index_status = IndexStatus.loaded ∧ (rerankerSub s st).2 = true)
    · simp [hcond]
    · simp [hcond]

/-- C6: when the fetched manifest's embedding-model identity differs
from the configured `EMBEDDING_MODEL_NAME`, the startup task raises
(`FATAL MODEL MISMATCH`), `index_status` ends at NOT_FOUND, no state of
the whole run ever has `index_status = LOADED`, and the startup error
handler terminates the process. -/
theorem model_mismatch_fatal (s : Settings) (env : LoadEnv)
    (he : env.embed_load_ok = true) (hd : env.downloaded = true)
    (hu : env.unpacked = true) (hx : env.manifest_exists = true)
    (hmm : env.manifest.embedding_model ≠ some s.EMBEDDING_MODEL_NAME) :
    (loadDependencies s env lifespanInit).raised = true ∧
    startupExitsProcess (loadDependencies s env lifespanInit) = true ∧
    (loadDependencies s env lifespanInit).final.index_status =
      IndexStatus.not_found ∧
    ∀ stx ∈ (loadDependencies s env lifespanInit).trace,
      stx.index_status ≠ IndexStatus.loaded := by
  unfold loadDependencies startupExitsProcess
  rw [he, hd, hu, hx]
  simp only [Bool.not_true, Bool.false_eq_true, if_false, Bool.and_self, if_true,
    if_pos hmm]
  refine ⟨trivial, trivial, trivial, ?_⟩
  intro stx hstx
  cases hre : s.RERANKING_ENABLED <;> rw [hre] at hstx <;>
    [skip; cases hrl : env.reranker_load_ok <;> rw [hrl] at hstx] <;>
    simp only [if_true, if_false, Bool.false_eq_true, List.mem_cons,
      List.not_mem_nil, or_false] at hstx <;>
    rcases hstx with rfl | rfl | rfl | rfl | rfl | rfl <;> simp [lifespanInit]

/-- Witness for `model_mismatch_fatal`: a manifest built with a different
embedding model than the configured one. -/
theorem model_mismatch_fatal_witness :
    (loadDependencies ⟨true, 25, 3600, "model"⟩
      ⟨true, true, true, true, true, ⟨some "other-model", some "col", some "main"⟩, true⟩
      lifespanInit).raised = true ∧
    startupExitsProcess (loadDependencies ⟨true, 25, 3600, "model"⟩
      ⟨true, true, true, true, true, ⟨some "other-model", some "col", some "main"⟩, true⟩
      lifespanInit) = true ∧
    (loadDependencies ⟨true, 25, 3600, "model"⟩
      ⟨true, true, true, true, true, ⟨some "other-model", some "col", some "main"⟩, true⟩
      lifespanInit).final.index_status = IndexStatus.not_found ∧
    ∀ stx ∈ (loadDependencies ⟨true, 25, 3600, "model"⟩
      ⟨true, true, true, true, true, ⟨some "other-model", some "col", some "main"⟩, true⟩
      lifespanInit).trace,
      stx.index_status ≠ IndexStatus.loaded :=
  model_mismatch_fatal ⟨true, 25, 3600, "model"⟩
    ⟨true, true, true, true, true, ⟨some "other-model", some "col", some "main"⟩, true⟩
    rfl rfl rfl rfl (by decide)

/-- C9: starting from the `lifespan` initial state, at every state of
the startup run (every snapshot of the assignment trace), if
`index_status = LOADED` then the chroma collection handle and the index
manifest are both set; and whenever the task re-raises, the final state
has `index_status = NOT_FOUND` and a `None` collection handle. -/
theorem lifecycle_loaded_invariant (s : Settings) (env : LoadEnv) :
    (∀ stx ∈ (loadDependencies s env lifespanInit).trace,
      stx.index_status = IndexStatus.loaded →
        stx.chroma_collection ≠ none ∧ stx.index_manifest ≠ none) ∧
    ((loadDependencies s env lifespanInit).raised = true →
      (loadDependencies s env lifespanInit).final.index_status =
        IndexStatus.not_found ∧
      (loadDependencies s env lifespanInit).final.chroma_collection = none) := by
  unfold loadDependencies
  cases he : env.embed_load_ok <;>
    cases hre : s.RERANKING_ENABLED <;>
      cases hrl : env.reranker_load_ok <;>
        cases hdu : (env.downloaded && env.unpacked) <;>
          cases hme : env.manifest_exists <;>
            cases hcl : env.collection_load_ok <;>
              by_cases hmm : env.manifest.embedding_model =
                  some s.EMBEDDING_MODEL_NAME <;>
                by_cases hcn : env.manifest.chroma_collection_name = none <;>
                  simp_all [lifespanInit]

/-- Witness for `lifecycle_loaded_invariant`: the fully successful
startup run; its LOADED snapshots carry the collection handle and the
manifest. -/
theorem lifecycle_loaded_invariant_witness :
    ((loadDependencies ⟨true, 25, 3600, "model"⟩
        ⟨true, true, true, true, true, ⟨some "model", some "col", some "main"⟩, true⟩
        lifespanInit).trace.length = 7 ∧
      (loadDependencies ⟨true, 25, 3600, "model"⟩
        ⟨true, true, true, true, true, ⟨some "model", some "col", some "main"⟩, true⟩
        lifespanInit).final.index_status = IndexStatus.loaded) ∧
    (∀ stx ∈ (loadDependencies ⟨true, 25, 3600, "model"⟩
        ⟨true, true, true, true, true, ⟨some "model", some "col", some "main"⟩, true⟩
        lifespanInit).trace,
      stx.index_status = IndexStatus.loaded →
        stx.chroma_collection ≠ none ∧ stx.index_manifest ≠ none) :=
  ⟨⟨by decide, by decide⟩,
    (lifecycle_loaded_invariant ⟨true, 25, 3600, "model"⟩
      ⟨true, true, true, true, true, ⟨some "model", some "col", some "main"⟩, true⟩).1⟩

end Librarian
